import Mathlib

/-!
# Verification of the KPI computation engine (`src/data_processor.py`)

This file is a shallow embedding, in Lean 4, of the `DataProcessor` class of
the market-health analytics dashboard, together with proofs and refutations of
the specification claims about it.

Modelling conventions:
* A pandas `DataFrame` of product (resp. sale) log records is modelled as a
  list of typed rows plus a flag recording whether the optional
  `date_formatted` column is present (tables coming from the database layer
  carry it, tables built directly from the API logs do not).
* `datetime` / `Timestamp` values are modelled as integers counting days since
  1970-01-01 (all dates occurring in the engine are midnight-aligned).
* Python `float` arithmetic is idealised as exact rational arithmetic (`ℚ`).
* An engine operation that can raise is modelled as `Except String`-valued;
  `Except.error` marks exactly the places where the Python code raises.
-/

deriving instance DecidableEq for Except

namespace Dashboard

/-! ## Calendar arithmetic

Day numbers use the standard civil-calendar conversion (Howard Hinnant's
`days_from_civil` / `civil_from_days` algorithms), which is what
`pandas.Timestamp` implements for midnight values. -/

/-- Number of days from 1970-01-01 to the civil date `(y, m, d)`. -/
def civilToDays (y m d : Int) : Int :=
  let y' := y - (if m ≤ 2 then 1 else 0)
  let era := (if 0 ≤ y' then y' else y' - 399) / 400
  let yoe := y' - era * 400
  let doy := (153 * (m + (if 2 < m then -3 else 9)) + 2) / 5 + d - 1
  let doe := yoe * 365 + yoe / 4 - yoe / 100 + doy
  era * 146097 + doe - 719468

/-- Civil date `(y, m, d)` of a day number (inverse of `civilToDays`). -/
def civilFromDays (z : Int) : Int × Int × Int :=
  let z' := z + 719468
  let era := (if 0 ≤ z' then z' else z' - 146096) / 146097
  let doe := z' - era * 146097
  let yoe := (doe - doe / 1460 + doe / 36524 - doe / 146096) / 365
  let y := yoe + era * 400
  let doy := doe - (365 * yoe + yoe / 4 - yoe / 100)
  let mp := (5 * doy + 2) / 153
  let d := doy - (153 * mp + 2) / 5 + 1
  let m := mp + (if mp < 10 then 3 else -9)
  (y + (if m ≤ 2 then 1 else 0), m, d)

def isLeapYear (y : Int) : Bool :=
  y % 4 == 0 && (y % 100 != 0 || y % 400 == 0)

def daysInMonth (y m : Int) : Int :=
  if m == 2 then (if isLeapYear y then 29 else 28)
  else if m == 4 || m == 6 || m == 9 || m == 11 then 30
  else 31

/-- Smallest day number representable by a `pandas.Timestamp` (1677-09-22,
the first full day inside the nanosecond range). -/
def tsMinDay : Int := civilToDays 1677 9 22

/-- Largest day number representable by a `pandas.Timestamp` (2262-04-11). -/
def tsMaxDay : Int := civilToDays 2262 4 11

/-- Number of decimal digits, fueled so that it reduces in the kernel. -/
def numDigitsAux : Nat → Nat → Nat
  | 0, _ => 1
  | fuel + 1, n => if n < 10 then 1 else 1 + numDigitsAux fuel (n / 10)

/-- Number of decimal digits of a natural number (`len(str(n))`). -/
def numDigits (n : Nat) : Nat := numDigitsAux n n

/-- Model of `pd.to_datetime(str(n), format = percent-Y-m-d)`: succeeds on an
8-digit `YYYYMMDD` encoding of a valid calendar date inside the `Timestamp`
range, returning its day number. -/
def parseYYYYMMDD (n : Nat) : Option Int :=
  if numDigits n ≠ 8 then none
  else
    let y : Int := (n / 10000 : Nat)
    let m : Int := (n / 100 % 100 : Nat)
    let d : Int := (n % 100 : Nat)
    if 1 ≤ m ∧ m ≤ 12 ∧ 1 ≤ d ∧ d ≤ daysInMonth y m then
      let z := civilToDays y m d
      if tsMinDay ≤ z ∧ z ≤ tsMaxDay then some z else none
    else none

/-- Day number of a month end: the next day starts a new month. -/
def isMonthEnd (z : Int) : Bool :=
  (civilFromDays (z + 1)).2.2 == 1

/-- Day 1970-01-04 (day number 3) was a Sunday; pandas anchors weekly
frequency `W` on Sundays. -/
def isSunday (z : Int) : Bool :=
  z.emod 7 == 3

/-- The three period granularities accepted by the engine
(`freq` strings `D`, `W`, `M`). -/
inductive Freq where
  | D : Freq
  | W : Freq
  | M : Freq
deriving DecidableEq, Repr

/-- All day numbers in `[sd, ed]`, in order. -/
def allDays (sd ed : Int) : List Int :=
  (List.range (ed + 1 - sd).toNat).map (fun k : Nat => sd + (k : Int))

/-- Model of `pd.date_range(sd, ed, freq)`: every day for `D`, the Sundays for `W`,
the month ends for `M`, each restricted to `[sd, ed]` and listed in
increasing order. -/
def dateRange (sd ed : Int) : Freq → List Int
  | Freq.D => allDays sd ed
  | Freq.W => (allDays sd ed).filter isSunday
  | Freq.M => (allDays sd ed).filter isMonthEnd

/-- Model of `pd.offsets.MonthEnd(1)`: rolls a day forward to the next month end
(a day already at a month end moves to the following one). -/
def pdMonthEnd (z : Int) : Int :=
  let y := (civilFromDays z).1
  let m := (civilFromDays z).2.1
  let me := civilToDays y m (daysInMonth y m)
  if z < me then me
  else if m == 12 then civilToDays (y + 1) 1 31
  else civilToDays y (m + 1) (daysInMonth y (m + 1))

/-! ## The data model: product and sale log tables -/

/-- One row of the products table. `dfv` is the value held by the optional
`date_formatted` column (meaningful only when the table carries it). -/
structure ProductRow where
  log_id : Nat
  prod_id : Nat
  cat_id : Nat
  fab_id : Nat
  date_id : Nat
  dfv : Int
deriving DecidableEq, Repr

/-- One row of the sales table (products plus the store id `mag_id`). -/
structure SaleRow where
  log_id : Nat
  prod_id : Nat
  cat_id : Nat
  fab_id : Nat
  mag_id : Nat
  date_id : Nat
  dfv : Int
deriving DecidableEq, Repr

/-- A products `DataFrame`: rows plus presence of the
`date_formatted` column. -/
structure ProductTable where
  rows : List ProductRow
  hasDF : Bool
deriving DecidableEq, Repr

/-- A sales `DataFrame`: rows plus presence of the `date_formatted` column. -/
structure SaleTable where
  rows : List SaleRow
  hasDF : Bool
deriving DecidableEq, Repr

/-- The `DataProcessor` state: the two optional attached tables
(`None` until `set_dataframes` has been called). -/
structure Processor where
  product_df : Option ProductTable
  sale_df : Option SaleTable
deriving DecidableEq, Repr

/-! ## List/series helpers mirroring the pandas operations used -/

/-- Model of `Series.nunique()`: number of distinct values. -/
def nunique (l : List Nat) : Nat := l.toFinset.card

/-- Distinct values of a list in order of first appearance (the key order a
pandas hash aggregation produces), with an explicit seen-set accumulator. -/
def uniqueKeysAux (seen : List Nat) : List Nat → List Nat
  | [] => []
  | x :: xs => if x ∈ seen then uniqueKeysAux seen xs
               else x :: uniqueKeysAux (x :: seen) xs

/-- Distinct values of a list in order of first appearance. -/
def uniqueKeys (l : List Nat) : List Nat := uniqueKeysAux [] l

/-- Descending-count order used by `value_counts`. -/
def countGe (a b : Nat × Nat) : Prop := b.2 ≤ a.2

instance : DecidableRel countGe := fun a b => inferInstanceAs (Decidable (b.2 ≤ a.2))

instance : IsTotal (Nat × Nat) countGe := ⟨fun a b => le_total b.2 a.2⟩

instance : IsTrans (Nat × Nat) countGe := ⟨fun _ _ _ h h' => le_trans h' h⟩

/-- Model of `Series.value_counts()`: each distinct value with its number of
occurrences, stably sorted by count descending. -/
def valueCounts (l : List Nat) : List (Nat × Nat) :=
  ((uniqueKeys l).map (fun k => (k, l.count k))).insertionSort countGe

/-- Arithmetic mean of a list of rationals (`Series.mean()`),
`0` on the empty list. -/
def listMean (l : List ℚ) : ℚ := l.sum / l.length

/-! ## `add_date_column`

The engine derives a `date` column from `date_id`.  It first tries the
`YYYYMMDD` decoding when the longest `date_id` rendering has 8 digits (the
whole conversion fails if any single value is undecodable); failing that, it
falls back to reading `date_id` as a day-of-year offset from 2022-01-01
(which fails, leaving no `date` column, as soon as one value lands outside
the `Timestamp` range).  An empty table is returned unchanged, without a
`date` column. -/

/-- Day number of 2022-01-01, the epoch of the day-of-year fallback. -/
def epoch2022 : Int := civilToDays 2022 1 1

/-- Decode a whole `date_id` column as `YYYYMMDD`; `none` as soon as one
value fails (the Python exception aborts the whole column conversion). -/
def parseAll : List Nat → Option (List Int)
  | [] => some []
  | d :: ds =>
    match parseYYYYMMDD d, parseAll ds with
    | some x, some xs => some (x :: xs)
    | _, _ => none

/-- Longest decimal rendering in the column (`str.len().max()`). -/
def maxDigits (l : List Nat) : Nat := (l.map numDigits).foldr max 0

/-- Day-of-year fallback: `2022-01-01 + (date_id - 1) days`, failing if any
resulting date overflows the `Timestamp` range. -/
def dayOfYearDates (l : List Nat) : Option (List Int) :=
  if l.all (fun x => epoch2022 + (x : Int) - 1 ≤ tsMaxDay) then
    some (l.map (fun x => epoch2022 + (x : Int) - 1))
  else none

/-- The derived `date` column of `add_date_column`, or `none` when the
function returns the table without one. -/
def addDates (l : List Nat) : Option (List Int) :=
  if l = [] then none
  else if maxDigits l = 8 then
    match parseAll l with
    | some ds => some ds
    | none => dayOfYearDates l
  else dayOfYearDates l

/-- Rows of a products table paired with their derived `date`, when
`add_date_column` produces one. -/
def datedProductRows (pt : ProductTable) : Option (List (ProductRow × Int)) :=
  (addDates (pt.rows.map ProductRow.date_id)).map pt.rows.zip

/-- Rows of a sales table paired with their derived `date`, when
`add_date_column` produces one. -/
def datedSaleRows (st : SaleTable) : Option (List (SaleRow × Int)) :=
  (addDates (st.rows.map SaleRow.date_id)).map st.rows.zip

/-! ## The engine operations

Each operation is `Except String`-valued; `Except.error` marks exactly the
places where the Python code raises. -/

/-- Does a date-range filter apply?  The code requires both bounds and the
presence of a `date_formatted` column (which `add_date_column` never adds,
it only adds `date`). -/
def rangeApplies (hasDF : Bool) (sd ed : Option Int) : Bool :=
  sd.isSome && ed.isSome && hasDF

/-- Is `dfv` in the (inclusive) optional range? -/
def dfvInRange (sd ed : Option Int) (v : Int) : Bool :=
  sd.getD 0 ≤ v && v ≤ ed.getD 0

/-- Model of `count_market_actors_by_category`: distinct `fab_id` among the product
rows of the category, date-filtered only via `date_formatted`. -/
def count_market_actors_by_category (proc : Processor) (c : Nat)
    (sd ed : Option Int) : Except String Nat :=
  match proc.product_df with
  | none => Except.ok 0
  | some pt =>
    let catRows := pt.rows.filter (fun r => r.cat_id == c)
    let fRows := if rangeApplies pt.hasDF sd ed
                 then catRows.filter (fun r => dfvInRange sd ed r.dfv)
                 else catRows
    Except.ok (nunique (fRows.map ProductRow.fab_id))

/-- Model of `avg_products_per_manufacturer_by_category`: distinct products per
manufacturer in the category, averaged over the manufacturers present. -/
def avg_products_per_manufacturer_by_category (proc : Processor) (c : Nat)
    (sd ed : Option Int) : Except String ℚ :=
  match proc.product_df with
  | none => Except.ok 0
  | some pt =>
    let catRows := pt.rows.filter (fun r => r.cat_id == c)
    let fRows := if rangeApplies pt.hasDF sd ed
                 then catRows.filter (fun r => dfvInRange sd ed r.dfv)
                 else catRows
    if fRows = [] then Except.ok 0
    else
      let perFab := (uniqueKeys (fRows.map ProductRow.fab_id)).map
        (fun f => (nunique ((fRows.filter (fun r => r.fab_id == f)).map
          ProductRow.prod_id) : ℚ))
      if perFab = [] then Except.ok 0
      else Except.ok (listMean perFab)

/-- The sorted store ranking `value_counts().head(n)` that `top_stores`
returns (given the sales table). -/
def topStoresList (st : SaleTable) (n : Nat) : List (Nat × Nat) :=
  (valueCounts (st.rows.map SaleRow.mag_id)).take n

/-- Model of `top_stores`: raises if the sales table was never set, otherwise the
`n` stores with the most sale agreements, count descending. -/
def top_stores (proc : Processor) (n : Nat) : Except String (List (Nat × Nat)) :=
  match proc.sale_df with
  | none => Except.error "DataFrame des accords de vente non defini"
  | some st => Except.ok (topStoresList st n)

/-- The sales considered by `manufacturer_health_score`: date-filtered via
`date_formatted` when the filter applies, all sales otherwise. -/
def healthFilteredSales (st : SaleTable) (sd ed : Option Int) : List SaleRow :=
  if rangeApplies st.hasDF sd ed
  then st.rows.filter (fun r => dfvInRange sd ed r.dfv)
  else st.rows

/-- The `value_counts().head(top_n_stores)` store ids of the health score. -/
def healthTopStores (fSales : List SaleRow) (topN : Nat) : List Nat :=
  ((valueCounts (fSales.map SaleRow.mag_id)).take topN).map Prod.fst

/-- The per-store sub-score of the health score: the manufacturer's distinct
products over all distinct products sold in that store and category,
`0.0` for a store without category sales or without products. -/
def healthStoreScore (fSales : List SaleRow) (m c s : Nat) : ℚ :=
  let ss := fSales.filter (fun r => r.mag_id == s && r.cat_id == c)
  if ss = [] then 0
  else
    let u := nunique (ss.map SaleRow.prod_id)
    let ms := nunique ((ss.filter (fun r => r.fab_id == m)).map SaleRow.prod_id)
    if 0 < u then (ms : ℚ) / u else 0

/-- The list of per-store sub-scores over the top stores. -/
def healthScores (fSales : List SaleRow) (m c topN : Nat) : List ℚ :=
  (healthTopStores fSales topN).map (healthStoreScore fSales m c)

/-- The health score of a set snapshot (the Python function returns a plain
float; it cannot raise once both tables are set). -/
def healthValue (pt : ProductTable) (st : SaleTable) (m c : Nat)
    (sd ed : Option Int) (topN : Nat) : ℚ :=
  if healthFilteredSales st sd ed = [] then 0
  else if pt.rows.filter (fun r => r.cat_id == c && r.fab_id == m) = [] then 0
  else if healthTopStores (healthFilteredSales st sd ed) topN = [] then 0
  else if healthScores (healthFilteredSales st sd ed) m c topN = [] then 0
  else (healthScores (healthFilteredSales st sd ed) m c topN).sum
        / (healthScores (healthFilteredSales st sd ed) m c topN).length

/-- Model of `manufacturer_health_score`: mean, over the top stores of the
(possibly date-filtered) sales, of the manufacturer's share of distinct
products sold in that store and category; `0.0` when either table is
unset. -/
def manufacturer_health_score (proc : Processor) (m c : Nat)
    (sd ed : Option Int) (topN : Nat) : Except String ℚ :=
  match proc.sale_df, proc.product_df with
  | none, _ => Except.ok 0
  | some _, none => Except.ok 0
  | some st, some pt => Except.ok (healthValue pt st m c sd ed topN)

/-- The half-open periods of `market_actors_over_time`: consecutive pairs of
the `date_range` anchor points. -/
def maotPeriods (sd ed : Int) (f : Freq) : List (Int × Int) :=
  (dateRange sd ed f).zip (dateRange sd ed f).tail

/-- The rows `market_actors_over_time` produces from the dated category
records: one `(period_start, actor_count)` row per half-open period between
consecutive `date_range` anchors. -/
def maotRows (dated : List (ProductRow × Int)) (c : Nat) (sd ed : Int)
    (f : Freq) : List (Int × Nat) :=
  let fRows := dated.filter (fun rd =>
    rd.1.cat_id == c && sd ≤ rd.2 && rd.2 ≤ ed)
  (maotPeriods sd ed f).map (fun p =>
    (p.1, nunique ((fRows.filter (fun rd =>
      p.1 ≤ rd.2 && rd.2 < p.2)).map (fun rd => rd.1.fab_id))))

/-- Model of `market_actors_over_time`: raises if the products table was never set or
if any `date_id` fails the `YYYYMMDD` conversion (the call to `pd.to_datetime`
at line 298 is not guarded); otherwise the period rows of `maotRows`. -/
def market_actors_over_time (proc : Processor) (c : Nat) (sd ed : Int)
    (f : Freq) : Except String (List (Int × Nat)) :=
  match proc.product_df with
  | none => Except.error "DataFrame de produits non defini"
  | some pt =>
    match parseAll (pt.rows.map ProductRow.date_id) with
    | none => Except.error "ValueError: time data does not match format YYYYMMDD"
    | some ds => Except.ok (maotRows (pt.rows.zip ds) c sd ed f)

/-- Model of `manufacturer_share_in_category`: the manufacturer's distinct products
over the category's distinct products, `0` for an empty category. -/
def manufacturer_share_in_category (proc : Processor) (m c : Nat)
    (sd ed : Option Int) : Except String ℚ :=
  match proc.product_df with
  | none => Except.ok 0
  | some pt =>
    let catRows := pt.rows.filter (fun r => r.cat_id == c)
    let fRows := if rangeApplies pt.hasDF sd ed
                 then catRows.filter (fun r => dfvInRange sd ed r.dfv)
                 else catRows
    if fRows = [] then Except.ok 0
    else
      let total := nunique (fRows.map ProductRow.prod_id)
      let manu := nunique ((fRows.filter (fun r => r.fab_id == m)).map
        ProductRow.prod_id)
      if 0 < total then Except.ok ((manu : ℚ) / total) else Except.ok 0

/-- Model of `manufacturer_products_in_category`: distinct products of the
manufacturer in the category. -/
def manufacturer_products_in_category (proc : Processor) (m c : Nat)
    (sd ed : Option Int) : Except String Nat :=
  match proc.product_df with
  | none => Except.ok 0
  | some pt =>
    let baseRows := pt.rows.filter (fun r => r.cat_id == c && r.fab_id == m)
    let fRows := if rangeApplies pt.hasDF sd ed
                 then baseRows.filter (fun r => dfvInRange sd ed r.dfv)
                 else baseRows
    Except.ok (nunique (fRows.map ProductRow.prod_id))

/-- Model of `get_winter_discount_period`: January 12 to February 8 of the year. -/
def get_winter_discount_period (y : Int) : Int × Int :=
  (civilToDays y 1 12, civilToDays y 2 8)

/-- Model of `get_summer_discount_period`: June 22 to July 19 of the year. -/
def get_summer_discount_period (y : Int) : Int × Int :=
  (civilToDays y 6 22, civilToDays y 7 19)

/-- Average of distinct products per manufacturer over a list of dated
product rows (the shared aggregation tail of the discount-period average). -/
def avgPerFabDated (rows : List (ProductRow × Int)) : ℚ :=
  if rows = [] then 0
  else
    let perFab := (uniqueKeys (rows.map (fun rd => rd.1.fab_id))).map
      (fun f => (nunique ((rows.filter (fun rd => rd.1.fab_id == f)).map
        (fun rd => rd.1.prod_id)) : ℚ))
    if perFab = [] then 0 else listMean perFab

/-- Model of `avg_products_in_discount_period`: the per-manufacturer average restricted
to the seasonal window, read from the derived `date` column when
`add_date_column` produced one, from `date_formatted` otherwise, and `0.0`
when neither column exists. -/
def avg_products_in_discount_period (proc : Processor) (c : Nat)
    (isWinter : Bool) (y : Int) : Except String ℚ :=
  match proc.product_df with
  | none => Except.ok 0
  | some pt =>
    let w := if isWinter then get_winter_discount_period y
             else get_summer_discount_period y
    match datedProductRows pt with
    | some dated =>
      Except.ok (avgPerFabDated (dated.filter (fun rd =>
        rd.1.cat_id == c && w.1 ≤ rd.2 && rd.2 ≤ w.2)))
    | none =>
      if pt.hasDF then
        Except.ok (avgPerFabDated ((pt.rows.map (fun r => (r, r.dfv))).filter
          (fun rd => rd.1.cat_id == c && w.1 ≤ rd.2 && rd.2 ≤ w.2)))
      else Except.ok 0

/-- Model of `top_stores_in_discount_period`: store ranking restricted to the seasonal
window (and optionally to a category); empty when the sales table is unset or
has no usable date column. -/
def top_stores_in_discount_period (proc : Processor) (c : Option Nat) (n : Nat)
    (isWinter : Bool) (y : Int) : Except String (List (Nat × Nat)) :=
  match proc.sale_df with
  | none => Except.ok []
  | some st =>
    let w := if isWinter then get_winter_discount_period y
             else get_summer_discount_period y
    let dated? : Option (List (SaleRow × Int)) :=
      match datedSaleRows st with
      | some dated => some dated
      | none => if st.hasDF then some (st.rows.map (fun r => (r, r.dfv))) else none
    match dated? with
    | none => Except.ok []
    | some dated =>
      let inW := dated.filter (fun rd => w.1 ≤ rd.2 && rd.2 ≤ w.2)
      let fRows : List (SaleRow × Int) := match c with
        | some cid => inW.filter (fun rd => rd.1.cat_id == cid)
        | none => inW
      if fRows = [] then Except.ok []
      else Except.ok ((valueCounts (fRows.map (fun rd => rd.1.mag_id))).take n)

/-- End of a period of `manufacturer_health_score_over_time`: the next month
end for `M`, six days later for `W`, the next day otherwise. -/
def overTimePeriodEnd (f : Freq) (a : Int) : Int :=
  match f with
  | Freq.M => pdMonthEnd a
  | Freq.W => a + 6
  | Freq.D => a + 1

/-- Score of one period of `manufacturer_health_score_over_time`: sales are
filtered to the period and the category before the top stores are ranked, the
products table is never consulted, and only stores with a positive distinct
product count enter the average. -/
def overTimePeriodScore (dated : List (SaleRow × Int)) (m c : Nat)
    (topN : Nat) (a pe : Int) : ℚ :=
  let ps := dated.filter (fun rd =>
    a ≤ rd.2 && rd.2 ≤ pe && rd.1.cat_id == c)
  if ps = [] then 0
  else
    let top := ((valueCounts (ps.map (fun rd => rd.1.mag_id))).take topN).map
      Prod.fst
    let scores := top.filterMap (fun s =>
      let ss := ps.filter (fun rd => rd.1.mag_id == s)
      let tot := nunique (ss.map (fun rd => rd.1.prod_id))
      let mfg := nunique ((ss.filter (fun rd => rd.1.fab_id == m)).map
        (fun rd => rd.1.prod_id))
      if 0 < tot then some ((mfg : ℚ) / tot) else none)
    if scores = [] then 0 else scores.sum / scores.length

/-- The dated sale rows `manufacturer_health_score_over_time` works on: the
`date_formatted` column when present, otherwise the `YYYYMMDD` decoding of
`date_id` (failing, unguarded, as soon as one value is undecodable). -/
def overTimeDated (st : SaleTable) : Option (List (SaleRow × Int)) :=
  if st.hasDF then some (st.rows.map (fun r => (r, r.dfv)))
  else (parseAll (st.rows.map SaleRow.date_id)).map st.rows.zip

/-- Model of `manufacturer_health_score_over_time`: fails when the sales table was
never set (`self.sale_df.copy()` on `None`) or when, absent a
`date_formatted` column, some `date_id` fails the `YYYYMMDD` conversion;
otherwise one `(period, health_score)` row per `date_range` anchor, the
period running inclusively from the anchor to `overTimePeriodEnd`. -/
def manufacturer_health_score_over_time (proc : Processor) (m c : Nat)
    (sd ed : Int) (topN : Nat) (f : Freq) :
    Except String (List (Int × ℚ)) :=
  match proc.sale_df with
  | none => Except.error "AttributeError: NoneType object has no attribute copy"
  | some st =>
    match overTimeDated st with
    | none => Except.error "ValueError: time data does not match format YYYYMMDD"
    | some dated =>
      Except.ok ((dateRange sd ed f).map (fun a =>
        (a, overTimePeriodScore dated m c topN a (overTimePeriodEnd f a))))

/-! ## Statements taken from the specification

These definitions follow the specification's wording, for comparison with
the engine definitions above. -/

/-- The record's calendar date as the specification understands it: decoded
from the canonical `YYYYMMDD` encoding of `date_id`. -/
def specDateOk (n : Nat) (sd ed : Int) : Bool :=
  (parseYYYYMMDD n).elim false (fun d => decide (sd ≤ d) && decide (d ≤ ed))

/-- What the spec says `countMarketActors` returns: the number of distinct
`fab_id` values among product records of the category whose date falls
within the range. -/
def specMarketActors (rows : List ProductRow) (c : Nat) (sd ed : Int) : Nat :=
  nunique ((rows.filter (fun r =>
    r.cat_id == c && specDateOk r.date_id sd ed)).map ProductRow.fab_id)

/-- What the spec calls `manufacturerProductCount` under a date range: the
manufacturer's distinct products in the category dated within the range. -/
def specManuProducts (rows : List ProductRow) (m c : Nat) (sd ed : Int) : Nat :=
  nunique ((rows.filter (fun r =>
    r.cat_id == c && r.fab_id == m && specDateOk r.date_id sd ed)).map
    ProductRow.prod_id)

/-- The product records the spec says `avgProductsInDiscountPeriod` must
aggregate: category records dated inside the seasonal window. -/
def specDiscountFilter (rows : List ProductRow) (c : Nat) (y : Int) :
    List ProductRow :=
  rows.filter (fun r => r.cat_id == c &&
    specDateOk r.date_id (get_winter_discount_period y).1
      (get_winter_discount_period y).2)

/-- Per-manufacturer distinct-product average over a plain list of product
rows (the aggregation the discount-period KPI performs). -/
def avgPerFabRows (rows : List ProductRow) : ℚ :=
  if rows = [] then 0
  else
    let perFab := (uniqueKeys (rows.map ProductRow.fab_id)).map
      (fun f => (nunique ((rows.filter (fun r => r.fab_id == f)).map
        ProductRow.prod_id) : ℚ))
    if perFab = [] then 0 else listMean perFab

/-- The rational value `manufacturer_share_in_category` computes (the
operation never raises). -/
def shareValue (pt : ProductTable) (m c : Nat) : ℚ :=
  match manufacturer_share_in_category ⟨some pt, none⟩ m c none none with
  | Except.ok q => q
  | Except.error _ => 0

/-- The manufacturers present in a category: distinct `fab_id` values of the
category's product records. -/
def fabsInCategory (rows : List ProductRow) (c : Nat) : Finset Nat :=
  ((rows.filter (fun r => r.cat_id == c)).map ProductRow.fab_id).toFinset

/-- The distinct products of a category (the share's denominator). -/
def catProds (rows : List ProductRow) (c : Nat) : Finset Nat :=
  ((rows.filter (fun r => r.cat_id == c)).map ProductRow.prod_id).toFinset

/-- The distinct products of one manufacturer within a category (the
share's numerator). -/
def fabProds (rows : List ProductRow) (m c : Nat) : Finset Nat :=
  (((rows.filter (fun r => r.cat_id == c)).filter
    (fun r => r.fab_id == m)).map ProductRow.prod_id).toFinset

/-- The data-model invariant of §3: within a category, the manufacturer
accompanying a product id is consistent across records. -/
def consistentFabs (rows : List ProductRow) (c : Nat) : Prop :=
  ∀ r ∈ rows, ∀ s ∈ rows, r.cat_id = c → s.cat_id = c →
    r.prod_id = s.prod_id → r.fab_id = s.fab_id

instance (rows : List ProductRow) (c : Nat) :
    Decidable (consistentFabs rows c) := by
  unfold consistentFabs
  infer_instance

/-! ## Concrete fixtures used by witnesses and counterexamples -/

/-- Day number of 2022-01-01 (start of the example date ranges). -/
def janStart : Int := civilToDays 2022 1 1

/-- Day number of 2022-01-31 (end of the example date ranges). -/
def janEnd : Int := civilToDays 2022 1 31

/-- A products table (no `date_formatted` column) whose single category-5
record is dated 2022-03-01, outside the January range. -/
def ptMarch : ProductTable := ⟨[⟨1, 101, 5, 1, 20220301, 0⟩], false⟩

/-- A sales table (no `date_formatted` column) with one category-5 sale of
product 101 by manufacturer 1 at store 10, dated 2022-01-15. -/
def stJan : SaleTable := ⟨[⟨1, 101, 5, 1, 10, 20220115, 0⟩], false⟩

/-- Products table with two category-5 records by two manufacturers. -/
def ptPair : ProductTable :=
  ⟨[⟨1, 101, 5, 1, 20220101, 0⟩, ⟨2, 102, 5, 2, 20220102, 0⟩], false⟩

/-- Products table whose category-5 rows are dated 2022-01-20 (inside the
2022 winter discount window) and 2022-03-01 (outside it). -/
def ptWinter : ProductTable :=
  ⟨[⟨1, 101, 5, 1, 20220120, 0⟩, ⟨2, 102, 5, 1, 20220301, 0⟩], false⟩

/-- A products table whose only record has the undecodable `date_id`
20221301 (month 13). -/
def ptBadDate : ProductTable := ⟨[⟨1, 101, 5, 1, 20221301, 0⟩], false⟩

/-- Products table for the over-time counterexample: manufacturer 1 has a
product record only in category 9, none in category 5. -/
def ptCat9 : ProductTable := ⟨[⟨1, 101, 9, 1, 20220215, 0⟩], false⟩

/-- Sales table for the over-time counterexample: one category-5 sale by
manufacturer 1 dated 2022-02-15. -/
def stFeb : SaleTable := ⟨[⟨1, 101, 5, 1, 10, 20220215, 0⟩], false⟩

/-! ## General lemmas -/

lemma sum_div_length_nonneg (l : List ℚ) (h : ∀ x ∈ l, 0 ≤ x) :
    0 ≤ l.sum / l.length :=
  div_nonneg (List.sum_nonneg h) (by positivity)

lemma sum_div_length_le_one (l : List ℚ) (h : ∀ x ∈ l, x ≤ 1) :
    l.sum / l.length ≤ 1 := by
  rcases eq_or_ne l [] with rfl | hne
  · simp
  · have hlen : 0 < (l.length : ℚ) := by
      have := List.length_pos.mpr hne
      exact_mod_cast this
    rw [div_le_one hlen]
    calc l.sum ≤ l.length • (1 : ℚ) := List.sum_le_card_nsmul l 1 h
    _ = l.length := by simp

lemma toFinset_card_map_filter_le {α : Type} (l : List α) (p : α → Bool)
    (f : α → Nat) :
    ((l.filter p).map f).toFinset.card ≤ ((l.map f).toFinset).card := by
  apply Finset.card_le_card
  intro x hx
  simp only [List.mem_toFinset, List.mem_map] at hx ⊢
  obtain ⟨a, ha, rfl⟩ := hx
  exact ⟨a, (List.mem_filter.mp ha).1, rfl⟩

lemma parseAll_eq_map (l : List Nat) (h : ∀ x ∈ l, (parseYYYYMMDD x).isSome) :
    parseAll l = some (l.map (fun x => (parseYYYYMMDD x).getD 0)) := by
  induction l with
  | nil => rfl
  | cons a t ih =>
    obtain ⟨d, hd⟩ := Option.isSome_iff_exists.mp (h a (by simp))
    have ht := ih (fun x hx => h x (by simp [hx]))
    simp only [parseAll, hd, ht, List.map_cons, Option.getD_some]

lemma dateRange_pairwise (sd ed : Int) (f : Freq) :
    (dateRange sd ed f).Pairwise (· < ·) := by
  have base : (allDays sd ed).Pairwise (· < ·) := by
    unfold allDays
    rw [List.pairwise_map]
    exact (List.pairwise_lt_range _).imp (@fun a b hab => by omega)
  cases f with
  | D => exact base
  | W => exact base.sublist (List.filter_sublist _)
  | M => exact base.sublist (List.filter_sublist _)

lemma zip_tail_chain (l : List Int) :
    List.Chain' (fun p q : Int × Int => p.2 = q.1) (l.zip l.tail) := by
  induction l with
  | nil => simp
  | cons a t ih =>
    cases t with
    | nil => simp
    | cons b t2 =>
      have hrest := ih
      cases t2 with
      | nil => simp
      | cons e t3 =>
        exact List.Chain'.cons rfl hrest

lemma zip_tail_lt (l : List Int) (hl : l.Pairwise (· < ·)) :
    ∀ p ∈ l.zip l.tail, p.1 < p.2 := by
  induction l with
  | nil => simp
  | cons a t ih =>
    cases t with
    | nil => simp
    | cons b t2 =>
      intro p hp
      rcases List.mem_cons.mp hp with rfl | hp2
      · exact (List.pairwise_cons.mp hl).1 b (by simp)
      · exact ih (List.pairwise_cons.mp hl).2 p hp2

lemma le_getLast_of_pairwise (a : Int) (t : List Int)
    (hl : (a :: t).Pairwise (· < ·)) :
    a ≤ (a :: t).getLast (List.cons_ne_nil a t) := by
  induction t generalizing a with
  | nil => simp
  | cons b t2 ih =>
    have hab : a < b := (List.pairwise_cons.mp hl).1 b (by simp)
    have hb := ih b (List.pairwise_cons.mp hl).2
    rw [List.getLast_cons (List.cons_ne_nil b t2)]
    omega

lemma zip_tail_cover (a : Int) (t : List Int) (hl : (a :: t).Pairwise (· < ·))
    (x : Int) :
    (∃ p ∈ (a :: t).zip t, p.1 ≤ x ∧ x < p.2) ↔
      a ≤ x ∧ x < (a :: t).getLast (List.cons_ne_nil a t) := by
  induction t generalizing a with
  | nil =>
    simp only [List.zip_nil_right, List.not_mem_nil, false_and, exists_false,
      List.getLast_singleton]
    constructor
    · intro h
      exact absurd h (by simp)
    · intro h
      omega
  | cons b t2 ih =>
    have hab : a < b := (List.pairwise_cons.mp hl).1 b (by simp)
    have htl : (b :: t2).Pairwise (· < ·) := (List.pairwise_cons.mp hl).2
    have hbL : b ≤ (b :: t2).getLast (List.cons_ne_nil b t2) :=
      le_getLast_of_pairwise b t2 htl
    have hih := ih b htl
    rw [List.getLast_cons (List.cons_ne_nil b t2)]
    constructor
    · intro h
      obtain ⟨p, hp, hpx⟩ := h
      rcases List.mem_cons.mp hp with rfl | hp2
      · exact ⟨hpx.1, by have := hpx.2; omega⟩
      · have := hih.mp ⟨p, hp2, hpx⟩
        exact ⟨by omega, this.2⟩
    · intro h
      by_cases hxb : x < b
      · exact ⟨(a, b), by simp, h.1, hxb⟩
      · obtain ⟨p, hp, hpx⟩ := hih.mpr ⟨by omega, h.2⟩
        exact ⟨p, by simp [hp], hpx⟩

lemma getLastD_cons_eq_getLast (a : Int) (t : List Int) (d : Int) :
    (a :: t).getLastD d = (a :: t).getLast (List.cons_ne_nil a t) := by
  induction t generalizing a d with
  | nil => rfl
  | cons b t2 ih =>
    rw [List.getLastD_cons, ih, List.getLast_cons (List.cons_ne_nil b t2)]

lemma healthStoreScore_nonneg (fSales : List SaleRow) (m c s : Nat) :
    0 ≤ healthStoreScore fSales m c s := by
  simp only [healthStoreScore]
  split_ifs with h1 h2
  · exact le_refl 0
  · positivity
  · exact le_refl 0

lemma healthStoreScore_le_one (fSales : List SaleRow) (m c s : Nat) :
    healthStoreScore fSales m c s ≤ 1 := by
  simp only [healthStoreScore]
  split_ifs with h1 h2
  · exact zero_le_one
  · rw [div_le_one (by exact_mod_cast h2)]
    exact_mod_cast toFinset_card_map_filter_le _ _ SaleRow.prod_id
  · exact zero_le_one

lemma healthValue_nonneg (pt : ProductTable) (st : SaleTable) (m c : Nat)
    (sd ed : Option Int) (topN : Nat) :
    0 ≤ healthValue pt st m c sd ed topN := by
  unfold healthValue
  split_ifs
  any_goals exact le_refl 0
  apply sum_div_length_nonneg
  intro x hx
  obtain ⟨s, _, rfl⟩ := List.mem_map.mp hx
  exact healthStoreScore_nonneg _ m c s

lemma healthValue_le_one (pt : ProductTable) (st : SaleTable) (m c : Nat)
    (sd ed : Option Int) (topN : Nat) :
    healthValue pt st m c sd ed topN ≤ 1 := by
  unfold healthValue
  split_ifs
  any_goals exact zero_le_one
  apply sum_div_length_le_one
  intro x hx
  obtain ⟨s, _, rfl⟩ := List.mem_map.mp hx
  exact healthStoreScore_le_one _ m c s

lemma healthValue_zero_of_no_products (pt : ProductTable) (st : SaleTable)
    (m c : Nat) (sd ed : Option Int) (topN : Nat)
    (h : pt.rows.filter (fun r => r.cat_id == c && r.fab_id == m) = []) :
    healthValue pt st m c sd ed topN = 0 := by
  simp [healthValue, h]

lemma numDigits_eq_of_parse (n : Nat) (h : (parseYYYYMMDD n).isSome) :
    numDigits n = 8 := by
  by_contra hne
  simp [parseYYYYMMDD, hne] at h

lemma maxDigits_all8 (l : List Nat) (hne : l ≠ [])
    (h : ∀ x ∈ l, numDigits x = 8) : maxDigits l = 8 := by
  induction l with
  | nil => cases hne rfl
  | cons a t ih =>
    unfold maxDigits
    simp only [List.map_cons, List.foldr_cons]
    rw [h a (by simp)]
    cases t with
    | nil => rfl
    | cons b t2 =>
      have ht := ih (by simp) (fun x hx => h x (by simp [hx]))
      unfold maxDigits at ht
      rw [ht]
      rfl

lemma addDates_of_all_parse (l : List Nat) (hne : l ≠ [])
    (h : ∀ x ∈ l, (parseYYYYMMDD x).isSome) :
    addDates l = some (l.map (fun x => (parseYYYYMMDD x).getD 0)) := by
  unfold addDates
  rw [if_neg hne,
    if_pos (maxDigits_all8 l hne (fun x hx => numDigits_eq_of_parse x (h x hx))),
    parseAll_eq_map l h]

lemma zip_map_self {α β : Type} (l : List α) (f : α → β) :
    l.zip (l.map f) = l.map (fun a => (a, f a)) := by
  induction l with
  | nil => rfl
  | cons a t ih => simp [ih]

lemma datedProductRows_of_all_parse (pt : ProductTable) (hne : pt.rows ≠ [])
    (h : ∀ r ∈ pt.rows, (parseYYYYMMDD r.date_id).isSome) :
    datedProductRows pt
      = some (pt.rows.map (fun r => (r, (parseYYYYMMDD r.date_id).getD 0))) := by
  unfold datedProductRows
  rw [addDates_of_all_parse _ (fun hh => hne (List.map_eq_nil_iff.mp hh))
    (fun x hx => by obtain ⟨r, hr, rfl⟩ := List.mem_map.mp hx; exact h r hr)]
  rw [Option.map_some', List.map_map, zip_map_self]
  rfl

lemma avgPerFabDated_of_map (rows : List ProductRow) (g : ProductRow → Int) :
    avgPerFabDated (rows.map (fun r => (r, g r))) = avgPerFabRows rows := by
  unfold avgPerFabDated avgPerFabRows
  have hm : (rows.map (fun r => (r, g r))).map (fun rd => rd.1.fab_id)
      = rows.map ProductRow.fab_id := by
    rw [List.map_map]; rfl
  have hm2 : ∀ f : Nat,
      ((rows.map (fun r => (r, g r))).filter (fun rd => rd.1.fab_id == f)).map
          (fun rd => rd.1.prod_id)
        = (rows.filter (fun r => r.fab_id == f)).map ProductRow.prod_id := by
    intro f
    rw [List.filter_map, List.map_map]
    rfl
  simp only [hm, hm2, List.map_eq_nil_iff]

lemma mem_fabProds (rows : List ProductRow) (m c p : Nat) :
    p ∈ fabProds rows m c
      ↔ ∃ r ∈ rows, r.cat_id = c ∧ r.fab_id = m ∧ r.prod_id = p := by
  unfold fabProds
  simp only [List.mem_toFinset, List.mem_map, List.mem_filter, beq_iff_eq]
  constructor
  · rintro ⟨r, ⟨⟨hr, hc⟩, hf⟩, hp⟩
    exact ⟨r, hr, hc, hf, hp⟩
  · rintro ⟨r, hr, hc, hf, hp⟩
    exact ⟨r, ⟨⟨hr, hc⟩, hf⟩, hp⟩

lemma mem_catProds (rows : List ProductRow) (c p : Nat) :
    p ∈ catProds rows c ↔ ∃ r ∈ rows, r.cat_id = c ∧ r.prod_id = p := by
  unfold catProds
  simp only [List.mem_toFinset, List.mem_map, List.mem_filter, beq_iff_eq]
  constructor
  · rintro ⟨r, ⟨hr, hc⟩, hp⟩
    exact ⟨r, hr, hc, hp⟩
  · rintro ⟨r, hr, hc, hp⟩
    exact ⟨r, ⟨hr, hc⟩, hp⟩

lemma mem_fabsInCategory (rows : List ProductRow) (c f : Nat) :
    f ∈ fabsInCategory rows c ↔ ∃ r ∈ rows, r.cat_id = c ∧ r.fab_id = f := by
  unfold fabsInCategory
  simp only [List.mem_toFinset, List.mem_map, List.mem_filter, beq_iff_eq]
  constructor
  · rintro ⟨r, ⟨hr, hc⟩, hp⟩
    exact ⟨r, hr, hc, hp⟩
  · rintro ⟨r, hr, hc, hp⟩
    exact ⟨r, ⟨hr, hc⟩, hp⟩

lemma sum_fabProds_card (rows : List ProductRow) (c : Nat)
    (hcons : consistentFabs rows c) :
    ∑ f in fabsInCategory rows c, (fabProds rows f c).card
      = (catProds rows c).card := by
  have hdisj : ∀ f ∈ fabsInCategory rows c, ∀ g ∈ fabsInCategory rows c,
      f ≠ g → Disjoint (fabProds rows f c) (fabProds rows g c) := by
    intro f _ g _ hfg
    rw [Finset.disjoint_left]
    intro p hpf hpg
    obtain ⟨r, hr, hrc, hrf, hrp⟩ := (mem_fabProds rows f c p).mp hpf
    obtain ⟨s, hs, hsc, hsf, hsp⟩ := (mem_fabProds rows g c p).mp hpg
    exact hfg (hrf ▸ hsf ▸ hcons r hr s hs hrc hsc (hrp.trans hsp.symm))
  rw [← Finset.card_biUnion hdisj]
  congr 1
  apply Finset.ext
  intro p
  simp only [Finset.mem_biUnion]
  constructor
  · rintro ⟨f, hf, hpf⟩
    obtain ⟨r, hr, hrc, _, hrp⟩ := (mem_fabProds rows f c p).mp hpf
    exact (mem_catProds rows c p).mpr ⟨r, hr, hrc, hrp⟩
  · intro hp
    obtain ⟨r, hr, hrc, hrp⟩ := (mem_catProds rows c p).mp hp
    exact ⟨r.fab_id, (mem_fabsInCategory rows c r.fab_id).mpr ⟨r, hr, hrc, rfl⟩,
      (mem_fabProds rows r.fab_id c p).mpr ⟨r, hr, hrc, rfl, hrp⟩⟩

lemma catProds_card_pos (rows : List ProductRow) (c : Nat)
    (hne : rows.filter (fun r => r.cat_id == c) ≠ []) :
    0 < (catProds rows c).card := by
  rw [Finset.card_pos]
  obtain ⟨r, hr⟩ := List.exists_mem_of_ne_nil _ hne
  have hrm := List.mem_filter.mp hr
  exact ⟨r.prod_id, (mem_catProds rows c r.prod_id).mpr
    ⟨r, hrm.1, by simpa using hrm.2, rfl⟩⟩

lemma shareValue_of_ne (pt : ProductTable) (m c : Nat)
    (hne : pt.rows.filter (fun r => r.cat_id == c) ≠ []) :
    shareValue pt m c
      = ((fabProds pt.rows m c).card : ℚ) / ((catProds pt.rows c).card : ℚ) := by
  have htot := catProds_card_pos pt.rows c hne
  simp only [shareValue, manufacturer_share_in_category, rangeApplies,
    Option.isSome_none, Bool.false_and, Bool.and_false, Bool.false_eq_true,
    if_false, if_neg hne]
  rw [if_pos]
  · rfl
  · exact htot

lemma shareValue_of_empty (pt : ProductTable) (m c : Nat)
    (h : pt.rows.filter (fun r => r.cat_id == c) = []) :
    shareValue pt m c = 0 := by
  simp [shareValue, manufacturer_share_in_category, h]

lemma shareValue_mem_unit (pt : ProductTable) (m c : Nat) :
    0 ≤ shareValue pt m c ∧ shareValue pt m c ≤ 1 := by
  by_cases h : pt.rows.filter (fun r => r.cat_id == c) = []
  · rw [shareValue_of_empty pt m c h]
    exact ⟨le_refl 0, zero_le_one⟩
  · rw [shareValue_of_ne pt m c h]
    have hsub : (fabProds pt.rows m c).card ≤ (catProds pt.rows c).card :=
      toFinset_card_map_filter_le _ _ _
    have htot := catProds_card_pos pt.rows c h
    constructor
    · positivity
    · rw [div_le_one (by exact_mod_cast htot)]
      exact_mod_cast hsub

/-! ## The claims -/

/-- C4: on a products table without a `date_formatted` column,
`count_market_actors_by_category`, `avg_products_per_manufacturer_by_category`,
`manufacturer_share_in_category` and `manufacturer_products_in_category`
return exactly the same value with a date range as without one — the
date-range filter is silently skipped. -/
theorem claim4_range_filter_skipped (pt : ProductTable) (sdf : Option SaleTable)
    (hp : pt.hasDF = false) (c m : Nat) (sd ed : Int) :
    count_market_actors_by_category ⟨some pt, sdf⟩ c (some sd) (some ed)
      = count_market_actors_by_category ⟨some pt, sdf⟩ c none none
    ∧ avg_products_per_manufacturer_by_category ⟨some pt, sdf⟩ c (some sd) (some ed)
      = avg_products_per_manufacturer_by_category ⟨some pt, sdf⟩ c none none
    ∧ manufacturer_share_in_category ⟨some pt, sdf⟩ m c (some sd) (some ed)
      = manufacturer_share_in_category ⟨some pt, sdf⟩ m c none none
    ∧ manufacturer_products_in_category ⟨some pt, sdf⟩ m c (some sd) (some ed)
      = manufacturer_products_in_category ⟨some pt, sdf⟩ m c none none := by
  refine ⟨?_, ?_, ?_, ?_⟩ <;>
    simp [count_market_actors_by_category, avg_products_per_manufacturer_by_category,
      manufacturer_share_in_category, manufacturer_products_in_category,
      rangeApplies, hp]

/-- Witness for C4: the January 2022 range does not change the
category-5 actor count on a table without `date_formatted`. -/
theorem claim4_witness :
    count_market_actors_by_category ⟨some ptMarch, none⟩ 5 (some janStart) (some janEnd)
      = count_market_actors_by_category ⟨some ptMarch, none⟩ 5 none none :=
  (claim4_range_filter_skipped ptMarch none rfl 5 1 janStart janEnd).1

/-- C7: `top_stores` returns at most `n` entries, sorted by agreement count
descending, and `top_stores n` is the length-`n` prefix of
`top_stores (n+1)`. -/
theorem claim7_top_stores (pdf : Option ProductTable) (st : SaleTable) (n : Nat) :
    top_stores ⟨pdf, some st⟩ n = Except.ok (topStoresList st n)
    ∧ (topStoresList st n).length ≤ n
    ∧ (topStoresList st n).Pairwise countGe
    ∧ topStoresList st n = (topStoresList st (n + 1)).take n := by
  refine ⟨rfl, List.length_take_le n _, ?_, ?_⟩
  · have hs : (valueCounts (st.rows.map SaleRow.mag_id)).Pairwise countGe :=
      List.sorted_insertionSort countGe _
    exact hs.sublist (List.take_sublist _ _)
  · unfold topStoresList
    rw [List.take_take, Nat.min_eq_left (Nat.le_succ n)]

/-- C3 counterexample: on a products table without `date_formatted`, the
count with the January 2022 range still includes the March-dated record, so
it differs from the spec's date-restricted count. -/
theorem claim3_counterexample :
    count_market_actors_by_category ⟨some ptMarch, none⟩ 5 (some janStart) (some janEnd)
      = Except.ok 1
    ∧ specMarketActors ptMarch.rows 5 janStart janEnd = 0 := by decide

/-- C3 amended: `count_market_actors_by_category` counts distinct `fab_id`
among the category's product records; the date range restricts the count
(via the `date_formatted` column) only when both bounds are given and the
table carries that column, and is ignored otherwise; an unset snapshot or an
empty match yields 0. -/
theorem claim3_amended (pt : ProductTable) (sdf : Option SaleTable) (c : Nat)
    (sd ed : Option Int) :
    (rangeApplies pt.hasDF sd ed = false →
      count_market_actors_by_category ⟨some pt, sdf⟩ c sd ed
        = Except.ok (((pt.rows.filter (fun r => r.cat_id == c)).map
            ProductRow.fab_id).toFinset.card))
    ∧ (rangeApplies pt.hasDF sd ed = true →
      count_market_actors_by_category ⟨some pt, sdf⟩ c sd ed
        = Except.ok ((((pt.rows.filter (fun r => r.cat_id == c)).filter
            (fun r => dfvInRange sd ed r.dfv)).map
            ProductRow.fab_id).toFinset.card))
    ∧ count_market_actors_by_category ⟨none, sdf⟩ c sd ed = Except.ok 0
    ∧ (pt.rows.filter (fun r => r.cat_id == c) = [] →
      count_market_actors_by_category ⟨some pt, sdf⟩ c sd ed = Except.ok 0) := by
  refine ⟨fun h => ?_, fun h => ?_, rfl, fun h => ?_⟩
  · simp [count_market_actors_by_category, h, nunique]
  · simp [count_market_actors_by_category, h, nunique]
  · simp [count_market_actors_by_category, h, nunique]

/-- Witness for C3 amended: with no range given, the count on the
one-record March table is 1. -/
theorem claim3_witness :
    count_market_actors_by_category ⟨some ptMarch, none⟩ 5 none none = Except.ok 1 := by
  rw [(claim3_amended ptMarch none 5 none none).1 rfl]
  decide

/-- C5 counterexample: `count_market_actors_by_category` does not raise when
queried before any snapshot has been set — it returns 0 — while `top_stores`
does raise; so it is false that every query operation raises in that
state. -/
theorem claim5_counterexample :
    count_market_actors_by_category ⟨none, none⟩ 5 none none = Except.ok 0
    ∧ (top_stores ⟨none, none⟩ 10).isOk = false := by decide

/-- C5 amended: before any snapshot is set, only `top_stores`,
`market_actors_over_time` and `manufacturer_health_score_over_time` fail;
the other query operations return their zero value (0, 0.0 or an empty
sequence).  Once a snapshot is set, a filter that matches zero rows yields
the zero value, never an error, and `market_actors_over_time` succeeds
whenever every `date_id` decodes. -/
theorem claim5_amended (pdf : Option ProductTable) (sdf : Option SaleTable)
    (pt : ProductTable) (st : SaleTable) (c m n topN : Nat)
    (sd ed : Option Int) (a b : Int) (f : Freq) (isW : Bool) (y : Int)
    (hc : pt.rows.filter (fun r => r.cat_id == c) = [])
    (hs : st.rows = [])
    (hparse : ∀ r ∈ pt.rows, (parseYYYYMMDD r.date_id).isSome) :
    ((top_stores ⟨pdf, none⟩ n).isOk = false
      ∧ (market_actors_over_time ⟨none, sdf⟩ c a b f).isOk = false
      ∧ (manufacturer_health_score_over_time ⟨pdf, none⟩ m c a b topN f).isOk = false)
    ∧ (count_market_actors_by_category ⟨none, sdf⟩ c sd ed = Except.ok 0
      ∧ avg_products_per_manufacturer_by_category ⟨none, sdf⟩ c sd ed = Except.ok 0
      ∧ manufacturer_share_in_category ⟨none, sdf⟩ m c sd ed = Except.ok 0
      ∧ manufacturer_products_in_category ⟨none, sdf⟩ m c sd ed = Except.ok 0
      ∧ manufacturer_health_score ⟨none, sdf⟩ m c sd ed topN = Except.ok 0
      ∧ manufacturer_health_score ⟨pdf, none⟩ m c sd ed topN = Except.ok 0
      ∧ avg_products_in_discount_period ⟨none, sdf⟩ c isW y = Except.ok 0
      ∧ top_stores_in_discount_period ⟨pdf, none⟩ (some c) n isW y = Except.ok [])
    ∧ (count_market_actors_by_category ⟨some pt, sdf⟩ c sd ed = Except.ok 0
      ∧ avg_products_per_manufacturer_by_category ⟨some pt, sdf⟩ c sd ed = Except.ok 0
      ∧ manufacturer_share_in_category ⟨some pt, sdf⟩ m c sd ed = Except.ok 0
      ∧ top_stores ⟨pdf, some st⟩ n = Except.ok []
      ∧ manufacturer_health_score ⟨some pt, some st⟩ m c sd ed topN = Except.ok 0
      ∧ (market_actors_over_time ⟨some pt, sdf⟩ c a b f).isOk = true) := by
  refine ⟨⟨rfl, rfl, rfl⟩,
    ⟨rfl, rfl, rfl, rfl, ?_, rfl, rfl, rfl⟩, ?_, ?_, ?_, ?_, ?_, ?_⟩
  · cases sdf <;> rfl
  · have : (pt.rows.filter (fun r => r.cat_id == c)).filter
        (fun r => dfvInRange sd ed r.dfv) = [] := by rw [hc]; rfl
    simp [count_market_actors_by_category, hc, this, nunique]
  · have : (pt.rows.filter (fun r => r.cat_id == c)).filter
        (fun r => dfvInRange sd ed r.dfv) = [] := by rw [hc]; rfl
    simp [avg_products_per_manufacturer_by_category, hc, this]
  · have : (pt.rows.filter (fun r => r.cat_id == c)).filter
        (fun r => dfvInRange sd ed r.dfv) = [] := by rw [hc]; rfl
    simp [manufacturer_share_in_category, hc, this]
  · simp [top_stores, topStoresList, hs, valueCounts, uniqueKeys, uniqueKeysAux,
      List.insertionSort]
  · have h1 : healthFilteredSales st sd ed = [] := by
      simp [healthFilteredSales, hs]
    simp [manufacturer_health_score, healthValue, h1]
  · have hmap : ∀ x ∈ pt.rows.map ProductRow.date_id,
        (parseYYYYMMDD x).isSome := by
      intro x hx
      obtain ⟨r, hr, rfl⟩ := List.mem_map.mp hx
      exact hparse r hr
    simp [market_actors_over_time, parseAll_eq_map _ hmap, Except.isOk, Except.toBool]

/-- Witness for C5 amended: `top_stores` fails before any snapshot is set. -/
theorem claim5_witness : (top_stores ⟨none, none⟩ 3).isOk = false :=
  (claim5_amended none none ⟨[], false⟩ ⟨[], false⟩ 5 1 3 2 none none 0 1
    Freq.D true 2022 rfl rfl (by decide)).1.1

/-- C1 counterexample: manufacturer 1 has zero category-5 product records
dated within January 2022 (its only record is dated 2022-03-01), yet the
health score over that range is 1.0, not 0.0 — the code checks the products
table without applying the date range. -/
theorem claim1_counterexample :
    specManuProducts ptMarch.rows 1 5 janStart janEnd = 0
    ∧ manufacturer_health_score ⟨some ptMarch, some stJan⟩ 1 5
        (some janStart) (some janEnd) 10 = Except.ok 1 := by
  with_unfolding_all decide

/-- C1 amended: `manufacturer_health_score` returns 0.0 whenever the
manufacturer has zero product records in the category anywhere in the
snapshot (the date range is not applied to that check), and the returned
score always lies in [0, 1]. -/
theorem claim1_amended (proc : Processor) (m c : Nat) (sd ed : Option Int)
    (topN : Nat) (pt : ProductTable) (hpt : proc.product_df = some pt) :
    (pt.rows.filter (fun r => r.cat_id == c && r.fab_id == m) = [] →
      manufacturer_health_score proc m c sd ed topN = Except.ok 0)
    ∧ ∃ q : ℚ, manufacturer_health_score proc m c sd ed topN = Except.ok q
        ∧ 0 ≤ q ∧ q ≤ 1 := by
  obtain ⟨pdf, sdf⟩ := proc
  cases hpt
  cases sdf with
  | none => exact ⟨fun _ => rfl, 0, rfl, le_refl 0, zero_le_one⟩
  | some st =>
    refine ⟨fun h2 => ?_, healthValue pt st m c sd ed topN, rfl,
      healthValue_nonneg pt st m c sd ed topN,
      healthValue_le_one pt st m c sd ed topN⟩
    have hv := healthValue_zero_of_no_products pt st m c sd ed topN h2
    show Except.ok (healthValue pt st m c sd ed topN) = Except.ok 0
    rw [hv]

/-- Witness for C1 amended: on an empty products table the health score of
any manufacturer is 0. -/
theorem claim1_witness :
    manufacturer_health_score ⟨some ⟨[], false⟩, some ⟨[], false⟩⟩ 1 5
      none none 10 = Except.ok 0 :=
  (claim1_amended ⟨some ⟨[], false⟩, some ⟨[], false⟩⟩ 1 5 none none 10
    ⟨[], false⟩ rfl).1 rfl

lemma share_isOk (pt : ProductTable) (m c : Nat) (sd ed : Option Int) :
    ∃ q, manufacturer_share_in_category ⟨some pt, none⟩ m c sd ed
      = Except.ok q := by
  simp only [manufacturer_share_in_category]
  split_ifs <;> exact ⟨_, rfl⟩

/-- C8: `manufacturer_share_in_category` always returns a value in [0, 1],
returns 0.0 when the category has no products, and — on a snapshot
satisfying the data-model invariant that the manufacturer accompanying a
product id is consistent within the category — the shares of exactly the
manufacturers present in a non-empty category sum to 1. -/
theorem claim8_share (pt : ProductTable) (sdf : Option SaleTable) (m c : Nat) :
    manufacturer_share_in_category ⟨some pt, sdf⟩ m c none none
      = Except.ok (shareValue pt m c)
    ∧ 0 ≤ shareValue pt m c ∧ shareValue pt m c ≤ 1
    ∧ (pt.rows.filter (fun r => r.cat_id == c) = [] → shareValue pt m c = 0)
    ∧ (consistentFabs pt.rows c →
        pt.rows.filter (fun r => r.cat_id == c) ≠ [] →
        ∑ f in fabsInCategory pt.rows c, shareValue pt f c = 1) := by
  refine ⟨?_, (shareValue_mem_unit pt m c).1, (shareValue_mem_unit pt m c).2,
    shareValue_of_empty pt m c, fun hcons hne => ?_⟩
  · obtain ⟨q, hq⟩ := share_isOk pt m c none none
    have hsame : manufacturer_share_in_category ⟨some pt, sdf⟩ m c none none
        = manufacturer_share_in_category ⟨some pt, none⟩ m c none none := rfl
    rw [hsame, hq]
    simp [shareValue, hq]
  · have hval : ∀ f, shareValue pt f c
        = ((fabProds pt.rows f c).card : ℚ) / ((catProds pt.rows c).card : ℚ) :=
      fun f => shareValue_of_ne pt f c hne
    have htot := catProds_card_pos pt.rows c hne
    calc ∑ f in fabsInCategory pt.rows c, shareValue pt f c
        = ∑ f in fabsInCategory pt.rows c,
            ((fabProds pt.rows f c).card : ℚ) / ((catProds pt.rows c).card : ℚ) :=
          Finset.sum_congr rfl (fun f _ => hval f)
    _ = (∑ f in fabsInCategory pt.rows c, ((fabProds pt.rows f c).card : ℚ))
          / ((catProds pt.rows c).card : ℚ) := by rw [Finset.sum_div]
    _ = ((catProds pt.rows c).card : ℚ) / ((catProds pt.rows c).card : ℚ) := by
          rw [← Nat.cast_sum, sum_fabProds_card pt.rows c hcons]
    _ = 1 := div_self (by exact_mod_cast Nat.pos_iff_ne_zero.mp htot)

/-- Witness for C8: on a two-manufacturer category the shares sum to 1. -/
theorem claim8_witness :
    ∑ f in fabsInCategory ptPair.rows 5, shareValue ptPair f 5 = 1 :=
  (claim8_share ptPair none 1 5).2.2.2.2 (by decide) (by decide)

/-- C10: `avg_products_in_discount_period` with `isWinter` aggregates
exactly the category's product records whose decoded date lies in the
inclusive window January 12 – February 8 of the year (years in the
`Timestamp`-representable era; every `date_id` decodes). -/
theorem claim10_discount_window (pt : ProductTable) (sdf : Option SaleTable)
    (c : Nat) (y : Int) (_hy : 1 ≤ y ∧ y ≤ 2260)
    (hparse : ∀ r ∈ pt.rows, (parseYYYYMMDD r.date_id).isSome) :
    avg_products_in_discount_period ⟨some pt, sdf⟩ c true y
      = Except.ok (avgPerFabRows (specDiscountFilter pt.rows c y))
    ∧ ∀ r ∈ pt.rows, (r ∈ specDiscountFilter pt.rows c y ↔
        (r.cat_id = c ∧ ∃ d, parseYYYYMMDD r.date_id = some d ∧
          (get_winter_discount_period y).1 ≤ d ∧
          d ≤ (get_winter_discount_period y).2)) := by
  constructor
  · by_cases hne : pt.rows = []
    · have hdated : datedProductRows pt = none := by
        simp [datedProductRows, addDates, hne]
      simp [avg_products_in_discount_period, hdated, hne, specDiscountFilter,
        avgPerFabRows, avgPerFabDated]
    · have hdated := datedProductRows_of_all_parse pt hne hparse
      simp only [avg_products_in_discount_period, hdated]
      rw [List.filter_map, avgPerFabDated_of_map]
      congr 2
      apply List.filter_congr
      intro r hr
      obtain ⟨d, hd⟩ := Option.isSome_iff_exists.mp (hparse r hr)
      simp [Function.comp, specDateOk, hd, Bool.and_assoc, specDiscountFilter]
  · intro r hr
    obtain ⟨d, hd⟩ := Option.isSome_iff_exists.mp (hparse r hr)
    simp [specDiscountFilter, List.mem_filter, specDateOk, hr, hd]

/-- Witness for C10: the 2022-01-20 record is aggregated, the 2022-03-01
record is not, giving an average of one product per manufacturer. -/
theorem claim10_witness :
    avg_products_in_discount_period ⟨some ptWinter, none⟩ 5 true 2022
      = Except.ok (avgPerFabRows (specDiscountFilter ptWinter.rows 5 2022))
    ∧ avgPerFabRows (specDiscountFilter ptWinter.rows 5 2022) = 1 :=
  ⟨(claim10_discount_window ptWinter none 5 2022 (by decide) (by decide)).1,
   by with_unfolding_all decide⟩

/-- C9: on a snapshot containing the undecodable `date_id` 20221301,
`market_actors_over_time` (and the over-time health score, absent a
`date_formatted` column) raise instead of excluding the row, while
`count_market_actors_by_category` silently keeps the row in its result —
the code contradicts the spec's local-degradation policy for undecodable
dates. -/
theorem claim9_code_bug :
    parseYYYYMMDD 20221301 = none
    ∧ (market_actors_over_time ⟨some ptBadDate, none⟩ 5 janStart
        (civilToDays 2022 12 31) Freq.M).isOk = false
    ∧ (manufacturer_health_score_over_time
        ⟨none, some ⟨[⟨1, 101, 5, 1, 10, 20221301, 0⟩], false⟩⟩
        1 5 janStart janEnd 10 Freq.D).isOk = false
    ∧ count_market_actors_by_category ⟨some ptBadDate, none⟩ 5
        (some janStart) (some janEnd) = Except.ok 1 := by decide

/-- C6 counterexample: with daily granularity over the three-day range
`[epoch2022, epoch2022 + 2]`, the produced periods are
`[epoch2022, epoch2022+1)` and `[epoch2022+1, epoch2022+2)`; their union
does not cover the end date `epoch2022 + 2`, so the periods do not exactly
cover `[startDate, endDate]`. -/
theorem claim6_counterexample :
    market_actors_over_time ⟨some ⟨[], false⟩, none⟩ 5 epoch2022
        (epoch2022 + 2) Freq.D
      = Except.ok [(epoch2022, 0), (epoch2022 + 1, 0)]
    ∧ (∀ p ∈ maotPeriods epoch2022 (epoch2022 + 2) Freq.D,
        ¬(p.1 ≤ epoch2022 + 2 ∧ epoch2022 + 2 < p.2)) := by decide

/-- C6 amended: `market_actors_over_time` produces one row (zero counts
included) per half-open period between consecutive `date_range` anchors;
consecutive periods are contiguous and non-overlapping, and their union is
exactly `[firstAnchor, lastAnchor)` — which may omit parts of
`[startDate, endDate]`, such as the end date itself. -/
theorem claim6_amended (pt : ProductTable) (sdf : Option SaleTable) (c : Nat)
    (sd ed : Int) (f : Freq)
    (hparse : ∀ r ∈ pt.rows, (parseYYYYMMDD r.date_id).isSome) :
    (∃ rows, market_actors_over_time ⟨some pt, sdf⟩ c sd ed f = Except.ok rows
       ∧ rows.map Prod.fst = (maotPeriods sd ed f).map Prod.fst
       ∧ rows.length = (maotPeriods sd ed f).length)
    ∧ List.Chain' (fun p q : Int × Int => p.2 = q.1) (maotPeriods sd ed f)
    ∧ (∀ p ∈ maotPeriods sd ed f, p.1 < p.2)
    ∧ (∀ x : Int, (∃ p ∈ maotPeriods sd ed f, p.1 ≤ x ∧ x < p.2) ↔
        (dateRange sd ed f ≠ [] ∧ (dateRange sd ed f).headD 0 ≤ x
          ∧ x < (dateRange sd ed f).getLastD 0)) := by
  refine ⟨?_, ?_, ?_, ?_⟩
  · have hmap : ∀ x ∈ pt.rows.map ProductRow.date_id,
        (parseYYYYMMDD x).isSome := by
      intro x hx
      obtain ⟨r, hr, rfl⟩ := List.mem_map.mp hx
      exact hparse r hr
    refine ⟨maotRows (pt.rows.zip ((pt.rows.map ProductRow.date_id).map
      (fun x => (parseYYYYMMDD x).getD 0))) c sd ed f, ?_, ?_, ?_⟩
    · simp [market_actors_over_time, parseAll_eq_map _ hmap]
    · simp [maotRows, List.map_map]
    · simp [maotRows]
  · unfold maotPeriods
    exact zip_tail_chain _
  · unfold maotPeriods
    exact zip_tail_lt _ (dateRange_pairwise sd ed f)
  · intro x
    unfold maotPeriods
    cases h : dateRange sd ed f with
    | nil => simp [h]
    | cons a t =>
      have hpw := dateRange_pairwise sd ed f
      rw [h] at hpw
      rw [getLastD_cons_eq_getLast]
      simp only [List.tail_cons, List.headD_cons, ne_eq, reduceCtorEq,
        not_false_eq_true, true_and]
      exact zip_tail_cover a t hpw x

/-- Witness for C6 amended: instantiated on an empty snapshot over a short
daily range. -/
theorem claim6_witness :
    ∃ rows, market_actors_over_time ⟨some ⟨[], false⟩, none⟩ 7 epoch2022
        (epoch2022 + 1) Freq.D = Except.ok rows
      ∧ rows.map Prod.fst = (maotPeriods epoch2022 (epoch2022 + 1) Freq.D).map Prod.fst
      ∧ rows.length = (maotPeriods epoch2022 (epoch2022 + 1) Freq.D).length :=
  (claim6_amended ⟨[], false⟩ none 7 epoch2022 (epoch2022 + 1) Freq.D
    (by decide)).1

/-- C2 counterexample: over `[2022-02-15, 2022-02-16]` with daily
granularity, the over-time health score reports 1.0 for the first period
although `manufacturer_health_score`, run on the snapshot restricted to that
period's sale records (here the whole sales table, whose only sale is dated
2022-02-15), returns 0.0 — the over-time variant never consults the products
table, in which manufacturer 1 has no category-5 record. -/
theorem claim2_counterexample :
    manufacturer_health_score_over_time ⟨some ptCat9, some stFeb⟩ 1 5
        (civilToDays 2022 2 15) (civilToDays 2022 2 16) 10 Freq.D
      = Except.ok [(civilToDays 2022 2 15, 1), (civilToDays 2022 2 16, 0)]
    ∧ manufacturer_health_score ⟨some ptCat9, some stFeb⟩ 1 5 none none 10
      = Except.ok 0 := by
  constructor
  · have h1 : dateRange (civilToDays 2022 2 15) (civilToDays 2022 2 16) Freq.D
        = [civilToDays 2022 2 15, civilToDays 2022 2 16] := by decide
    have h2 : overTimeDated stFeb
        = some [((⟨1, 101, 5, 1, 10, 20220215, 0⟩ : SaleRow),
            civilToDays 2022 2 15)] := by decide
    have h3 : overTimePeriodScore [((⟨1, 101, 5, 1, 10, 20220215, 0⟩ : SaleRow),
        civilToDays 2022 2 15)] 1 5 10
        (civilToDays 2022 2 15) (overTimePeriodEnd Freq.D (civilToDays 2022 2 15)) = 1 := by
      have h : overTimePeriodEnd Freq.D (civilToDays 2022 2 15)
          = civilToDays 2022 2 16 := by decide
      rw [h]
      with_unfolding_all decide
    have h4 : overTimePeriodScore [((⟨1, 101, 5, 1, 10, 20220215, 0⟩ : SaleRow),
        civilToDays 2022 2 15)] 1 5 10
        (civilToDays 2022 2 16) (overTimePeriodEnd Freq.D (civilToDays 2022 2 16)) = 0 := by
      have h : overTimePeriodEnd Freq.D (civilToDays 2022 2 16)
          = civilToDays 2022 2 17 := by decide
      rw [h]
      with_unfolding_all decide
    simp only [manufacturer_health_score_over_time, h2, h1, List.map_cons,
      List.map_nil, h3, h4]
  · with_unfolding_all decide

/-- C2 amended: each row of `manufacturer_health_score_over_time` is the
over-time variant score of its period — sales are filtered to the period and
the category before the top stores are ranked, the products table is never
consulted, and only stores with a positive distinct-product count enter the
average; a period with zero category sales yields a row with score 0.0
rather than being omitted. -/
theorem claim2_amended (pdf pdf2 : Option ProductTable) (st : SaleTable)
    (m c : Nat) (sd ed : Int) (topN : Nat) (f : Freq)
    (dated : List (SaleRow × Int)) (hd : overTimeDated st = some dated) :
    manufacturer_health_score_over_time ⟨pdf, some st⟩ m c sd ed topN f
      = Except.ok ((dateRange sd ed f).map (fun a =>
          (a, overTimePeriodScore dated m c topN a (overTimePeriodEnd f a))))
    ∧ manufacturer_health_score_over_time ⟨pdf, some st⟩ m c sd ed topN f
      = manufacturer_health_score_over_time ⟨pdf2, some st⟩ m c sd ed topN f
    ∧ ∀ a pe : Int,
        dated.filter (fun rd => a ≤ rd.2 && rd.2 ≤ pe && rd.1.cat_id == c) = [] →
        overTimePeriodScore dated m c topN a pe = 0 := by
  refine ⟨?_, ?_, ?_⟩
  · simp [manufacturer_health_score_over_time, hd]
  · simp [manufacturer_health_score_over_time, hd]
  · intro a pe h
    simp [overTimePeriodScore, h]

/-- Witness for C2 amended: instantiated on the February sales table over a
weekly range. -/
theorem claim2_witness :
    manufacturer_health_score_over_time ⟨none, some stFeb⟩ 1 5 janStart janEnd
        10 Freq.W
      = Except.ok ((dateRange janStart janEnd Freq.W).map (fun a =>
          (a, overTimePeriodScore [((⟨1, 101, 5, 1, 10, 20220215, 0⟩ : SaleRow),
            civilToDays 2022 2 15)] 1 5 10 a (overTimePeriodEnd Freq.W a)))) :=
  (claim2_amended none none stFeb 1 5 janStart janEnd 10 Freq.W _ (by decide)).1

end Dashboard
